import Mathlib

/-!
Verification development for the `reza-fastmcp` server (`src/server.py`).

The server exposes independent utility functions as tools through the
FastMCP framework.  Python strings are modelled as Lean `String`s
(sequences of Unicode scalar values), bytes as `Nat`s below 256, and the
ambient process effects a handler may consult (entropy, clock) as an
explicit `World` record.  External libraries that a handler merely calls
(hashlib digests, the markdown renderer, BeautifulSoup) appear as function
parameters, so theorems quantify over their behaviour.  The registry and
dispatch layer is supplied by the imported FastMCP framework and is not
part of the repository's sources; it is modelled from the specification
where a claim needs it, and each such definition is marked accordingly.
-/

namespace RezaMCP

/-- Ambient process state a handler may consult: `entropy i` is the `i`-th
byte of the `os.urandom` stream (used by `uuid.uuid4`) and `choice i` the
`i`-th pick made by `secrets.choice`.  Handlers that are pure functions of
their arguments never read it. -/
structure World where
  entropy : Nat → Nat
  choice : Nat → Nat

/-- Embedding of `echo_tool` (src/server.py:72-75): return the input text. -/
def echo_tool (text : String) : String := text

/-- Embedding of `reverse_text` (src/server.py:77-80): Python `text[::-1]`
reverses the sequence of code points. -/
def reverse_text (text : String) : String := ⟨text.data.reverse⟩

/-- Python `ValueError`, the exception `str.split` raises on an empty
separator. -/
inductive PyErr where
  | valueError (msg : String)
deriving DecidableEq

/-- Worker for Python `str.split(sep)` with non-empty `sep = d0 :: dtl`:
scan left to right, cutting at each non-overlapping occurrence of the
separator.  `cur` holds the (reversed) characters of the piece being
accumulated; `fuel` is a structural bound on the characters still to scan,
supplied as `s.length` and maintained as an upper bound by every recursive
call, so the `fuel = 0` case with a non-empty rest is never reached. -/
def splitAux (d0 : Char) (dtl : List Char) : Nat → List Char → List Char →
    List (List Char)
  | _, [], cur => [cur.reverse]
  | 0, s, cur => [cur.reverse ++ s]
  | fuel + 1, c :: rest, cur =>
    if (d0 :: dtl).isPrefixOf (c :: rest) then
      cur.reverse :: splitAux d0 dtl fuel (rest.drop dtl.length) []
    else
      splitAux d0 dtl fuel rest (c :: cur)

/-- Tail of Python `sep.join`: the separator before every element after the
first. -/
def joinTail (d : List Char) : List (List Char) → List Char
  | [] => []
  | x :: xs => d ++ x ++ joinTail d xs

/-- Python `sep.join(parts)` on lists of characters. -/
def joinWith (d : List Char) : List (List Char) → List Char
  | [] => []
  | x :: xs => x ++ joinTail d xs

/-- Embedding of `split_text` (src/server.py:102-105): Python
`text.split(delimiter)`.  With an empty separator `str.split` raises
`ValueError("empty separator")`; the fallible call is embedded as
`Except`. -/
def split_text (text : String) (delimiter : String := " ") :
    Except PyErr (List String) :=
  match delimiter.data with
  | [] => .error (.valueError "empty separator")
  | d0 :: dtl =>
    .ok ((splitAux d0 dtl text.data.length text.data []).map fun l => ⟨l⟩)

/-- Embedding of `join_text` (src/server.py:107-110): Python
`delimiter.join(parts)`. -/
def join_text (parts : List String) (delimiter : String := " ") : String :=
  ⟨joinWith delimiter.data (parts.map String.data)⟩

/-- UTF-8 encoding of one Unicode scalar value, as Python
`str.encode("utf-8")` produces it (bit operations written with `/` and
`%`). -/
def utf8EncodeChar (c : Char) : List Nat :=
  if c.toNat < 0x80 then [c.toNat]
  else if c.toNat < 0x800 then [0xC0 + c.toNat / 64, 0x80 + c.toNat % 64]
  else if c.toNat < 0x10000 then
    [0xE0 + c.toNat / 4096, 0x80 + c.toNat / 64 % 64, 0x80 + c.toNat % 64]
  else
    [0xF0 + c.toNat / 262144, 0x80 + c.toNat / 4096 % 64, 0x80 + c.toNat / 64 % 64,
      0x80 + c.toNat % 64]

/-- UTF-8 encoding of a sequence of code points as a byte list. -/
def utf8Encode : List Char → List Nat
  | [] => []
  | c :: cs => utf8EncodeChar c ++ utf8Encode cs

/-- Lower bound of the second byte of a three-byte UTF-8 sequence headed by
`b` (0xE0 forbids overlong encodings). -/
def utf8Lo3 (b : Nat) : Nat := if b = 0xE0 then 0xA0 else 0x80

/-- Upper bound (exclusive) of the second byte of a three-byte UTF-8
sequence headed by `b` (0xED forbids surrogates). -/
def utf8Hi3 (b : Nat) : Nat := if b = 0xED then 0xA0 else 0xC0

/-- Lower bound of the second byte of a four-byte UTF-8 sequence headed by
`b` (0xF0 forbids overlong encodings). -/
def utf8Lo4 (b : Nat) : Nat := if b = 0xF0 then 0x90 else 0x80

/-- Upper bound (exclusive) of the second byte of a four-byte UTF-8
sequence headed by `b` (0xF4 caps code points at 0x10FFFF). -/
def utf8Hi4 (b : Nat) : Nat := if b = 0xF4 then 0x90 else 0xC0

/-- Strict UTF-8 decoding of one leading character, as Python
`bytes.decode("utf-8")` accepts or rejects it: continuation bytes are
checked, and overlong forms, surrogates and values above 0x10FFFF are
rejected.  Returns the character and the remaining bytes. -/
def utf8DecodeOne : List Nat → Option (Char × List Nat)
  | [] => none
  | b :: rest =>
    if b < 0x80 then some (Char.ofNat b, rest)
    else if b < 0xE0 then
      if b < 0xC2 then none
      else
        match rest with
        | b2 :: rest2 =>
          if 0x80 ≤ b2 ∧ b2 < 0xC0 then
            some (Char.ofNat ((b - 0xC0) * 64 + (b2 - 0x80)), rest2)
          else none
        | [] => none
    else if b < 0xF0 then
      match rest with
      | b2 :: b3 :: rest3 =>
        if utf8Lo3 b ≤ b2 ∧ b2 < utf8Hi3 b ∧ 0x80 ≤ b3 ∧ b3 < 0xC0 then
          some (Char.ofNat ((b - 0xE0) * 4096 + (b2 - 0x80) * 64 + (b3 - 0x80)),
            rest3)
        else none
      | _ => none
    else if b < 0xF5 then
      match rest with
      | b2 :: b3 :: b4 :: rest4 =>
        if utf8Lo4 b ≤ b2 ∧ b2 < utf8Hi4 b ∧ 0x80 ≤ b3 ∧ b3 < 0xC0 ∧
            0x80 ≤ b4 ∧ b4 < 0xC0 then
          some (Char.ofNat
              ((b - 0xF0) * 262144 + (b2 - 0x80) * 4096 + (b3 - 0x80) * 64 +
                (b4 - 0x80)),
            rest4)
        else none
      | _ => none
    else none

/-- Driver of the strict UTF-8 decoder: decode characters until the bytes
are exhausted.  `fuel` is a structural bound on the bytes still to decode,
supplied as the byte count; every decoded character consumes at least one
byte, so the `fuel = 0` case with bytes remaining is never reached on
those calls. -/
def utf8DecodeLoop : Nat → List Nat → Option (List Char)
  | _, [] => some []
  | 0, _ :: _ => none
  | fuel + 1, b :: rest =>
    match utf8DecodeOne (b :: rest) with
    | some (c, rest2) => (utf8DecodeLoop fuel rest2).map (c :: ·)
    | none => none

/-- Strict UTF-8 decoding of a byte list, as Python `bytes.decode("utf-8")`
accepts or rejects it. -/
def utf8Decode (bs : List Nat) : Option (List Char) :=
  utf8DecodeLoop bs.length bs

/-- Characters of the standard base64 alphabet, in value order. -/
def b64Alphabet : List Char :=
  "ABCDEFGHIJKLMNOPQRSTUVWXYZabcdefghijklmnopqrstuvwxyz0123456789+/".data

/-- Character carrying the 6-bit value `v` in the base64 alphabet. -/
def b64Char (v : Nat) : Char := b64Alphabet.getD v 'A'

/-- Value of a base64 alphabet character, `none` for every other
character (the `table_a2b_base64` lookup of CPython's `binascii`). -/
def b64Table (c : Char) : Option Nat := b64Alphabet.findIdx? (· == c)

/-- Base64 encoding of a byte list as a character list, as Python
`base64.b64encode` produces it: three bytes per quad, with `=` padding for
a one- or two-byte tail. -/
def b64EncodeBytes : List Nat → List Char
  | [] => []
  | [b1] => [b64Char (b1 / 4), b64Char (b1 % 4 * 16), '=', '=']
  | [b1, b2] =>
    [b64Char (b1 / 4), b64Char (b1 % 4 * 16 + b2 / 16), b64Char (b2 % 16 * 4), '=']
  | b1 :: b2 :: b3 :: rest =>
    b64Char (b1 / 4) :: b64Char (b1 % 4 * 16 + b2 / 16) ::
      b64Char (b2 % 16 * 4 + b3 / 64) :: b64Char (b3 % 64) :: b64EncodeBytes rest

/-- Failures of Python `base64.b64decode(s).decode("utf-8")`: the two
`binascii.Error` cases of the lenient decoder, the ASCII precheck of
`b64decode` on `str` input, and a `UnicodeDecodeError` from the final
UTF-8 step.  The rendered messages below approximate CPython's wording;
every theorem relies only on which case occurred. -/
inductive DecodeErr where
  | oneMoreChar
  | incorrectPadding
  | nonAsciiInput
  | invalidUtf8
deriving DecidableEq

/-- Message text Python would place in `str(e)` for each failure case
(approximate for the two cases whose exact wording embeds counts). -/
def DecodeErr.render : DecodeErr → String
  | .oneMoreChar =>
    "Invalid base64-encoded string: number of data characters cannot be 1 more than a multiple of 4"
  | .incorrectPadding => "Incorrect padding"
  | .nonAsciiInput => "string argument should contain only ASCII characters"
  | .invalidUtf8 => "invalid utf-8 sequence"

/-- Lenient base64 decoding loop, following CPython's `binascii.a2b_base64`
in non-strict mode: characters outside the alphabet are discarded; a `=`
ends decoding once a quad holds at least two data characters and enough
padding; a trailing quad of one data character, or of two or three without
enough padding, is an error.  `qp` is `quad_pos`, `lc` the pending
`leftchar` bits, `pads` the running padding count, `acc` the bytes decoded
so far. -/
def b64DecodeLoop : List Char → Nat → Nat → Nat → List Nat →
    Except DecodeErr (List Nat)
  | [], qp, _, _, acc =>
    if qp = 0 then .ok acc
    else if qp = 1 then .error .oneMoreChar
    else .error .incorrectPadding
  | c :: rest, qp, lc, pads, acc =>
    if c = '=' then
      if 2 ≤ qp then
        if 4 ≤ qp + pads + 1 then .ok acc
        else b64DecodeLoop rest qp lc (pads + 1) acc
      else b64DecodeLoop rest qp lc pads acc
    else
      match b64Table c with
      | none => b64DecodeLoop rest qp lc pads acc
      | some v =>
        match qp with
        | 0 => b64DecodeLoop rest 1 v 0 acc
        | 1 => b64DecodeLoop rest 2 (v % 16) 0 (acc ++ [lc * 4 + v / 16])
        | 2 => b64DecodeLoop rest 3 (v % 4) 0 (acc ++ [lc * 16 + v / 4])
        | _ => b64DecodeLoop rest 0 0 0 (acc ++ [lc * 64 + v])

/-- Python `base64.b64decode(encoded_text).decode("utf-8")` on a `str`
argument: ASCII precheck, lenient base64 decode, strict UTF-8 decode. -/
def pyB64DecodeUtf8 (cs : List Char) : Except DecodeErr String :=
  if ∀ c ∈ cs, c.toNat < 128 then
    match b64DecodeLoop cs 0 0 0 [] with
    | .ok bytes =>
      match utf8Decode bytes with
      | some chars => .ok ⟨chars⟩
      | none => .error .invalidUtf8
    | .error e => .error e
  else .error .nonAsciiInput

/-- Embedding of `encode_base64` (src/server.py:158-161): Python
`base64.b64encode(text.encode("utf-8")).decode("utf-8")`. -/
def encode_base64 (text : String) : String :=
  ⟨b64EncodeBytes (utf8Encode text.data)⟩

/-- Embedding of `decode_base64` (src/server.py:163-169): the decode is
attempted and any exception is swallowed into an `"Error decoding
base64: ..."` return value. -/
def decode_base64 (encoded_text : String) : String :=
  match pyB64DecodeUtf8 encoded_text.data with
  | .ok t => t
  | .error e => "Error decoding base64: " ++ e.render

/-- Conformance of a string to the base64 grammar: full quads of alphabet
characters, the last quad optionally padded as `xy==` or `xyz=`.  Used to
state what a caller would call valid base64 input. -/
def validBase64Core : List Char → Bool
  | [] => true
  | [a, b, c, d] =>
    (b64Table a).isSome && (b64Table b).isSome &&
      (((b64Table c).isSome && ((b64Table d).isSome || d = '=')) ||
        (c = '=' && d = '='))
  | a :: b :: c :: d :: rest =>
    (b64Table a).isSome && (b64Table b).isSome && (b64Table c).isSome &&
      (b64Table d).isSome && validBase64Core rest
  | _ => false

/-- Conformance of a string to the base64 grammar. -/
def validBase64 (s : String) : Bool := validBase64Core s.data

/-- External digest functions of Python's `hashlib`, taken as parameters:
each maps the UTF-8 bytes of the input to a hex digest string. -/
structure HashImpl where
  md5 : List Nat → String
  sha1 : List Nat → String
  sha256 : List Nat → String
  sha512 : List Nat → String

/-- Dictionary of supported algorithms in `hash_text`
(src/server.py:174-179), in insertion order. -/
def hashAlgos (impl : HashImpl) : List (String × (List Nat → String)) :=
  [("md5", impl.md5), ("sha1", impl.sha1), ("sha256", impl.sha256),
    ("sha512", impl.sha512)]

/-- Embedding of `hash_text` (src/server.py:171-185): unsupported algorithm
names yield a fixed message string (the joined dictionary keys) instead of
an exception. -/
def hash_text (impl : HashImpl) (text : String) (algorithm : String := "sha256") :
    String :=
  match List.lookup algorithm (hashAlgos impl) with
  | some f => f (utf8Encode text.data)
  | none => "Unsupported algorithm. Choose from: md5, sha1, sha256, sha512"

/-- Hex digit character for a value below 16, as Python's `%x` formatting
produces it. -/
def hexDigit (n : Nat) : Char := "0123456789abcdef".data.getD n '0'

/-- Two lowercase hex digits of one byte. -/
def byteHex (b : Nat) : List Char := [hexDigit (b / 16), hexDigit (b % 16)]

/-- Hex rendering of a byte list. -/
def hexList : List Nat → List Char
  | [] => []
  | b :: bs => byteHex b ++ hexList bs

/-- Canonical 8-4-4-4-12 rendering of 16 bytes, as `str(uuid.UUID(...))`
produces it. -/
def uuidStr (bs : List Nat) : String :=
  ⟨hexList (bs.take 4) ++ '-' :: hexList ((bs.drop 4).take 2) ++
    '-' :: hexList ((bs.drop 6).take 2) ++ '-' :: hexList ((bs.drop 8).take 2) ++
    '-' :: hexList (bs.drop 10)⟩

/-- Embedding of `generate_uuid` (src/server.py:187-190): `uuid.uuid4()`
draws 16 bytes from `os.urandom` — the `World`'s entropy stream — then
forces the version nibble to 4 and the variant bits to `10` before hex
formatting. -/
def generate_uuid (w : World) : String :=
  uuidStr (((List.range 16).map fun i => w.entropy i % 256).mapIdx fun i b =>
    if i = 6 then b % 16 + 64 else if i = 8 then b % 64 + 128 else b)

/-- Character pool of `generate_password` (src/server.py:198-200):
`string.ascii_letters + string.digits`, extended with eight symbols when
requested. -/
def passwordChars (include_symbols : Bool) : List Char :=
  ("abcdefghijklmnopqrstuvwxyzABCDEFGHIJKLMNOPQRSTUVWXYZ0123456789" ++
    (if include_symbols then "!@#$%^&*" else "")).data

/-- Embedding of `generate_password` (src/server.py:192-202): `length`
successive `secrets.choice` picks from the pool, read from the `World`'s
choice stream. -/
def generate_password (w : World) (length : Nat := 12)
    (include_symbols : Bool := true) : String :=
  let chars := passwordChars include_symbols
  ⟨(List.range length).map fun i => chars.getD (w.choice i % chars.length) 'a'⟩

/-- Embedding of `markdown_to_html` (src/server.py:1323-1333): the
availability flag is checked first; `mdlib` is the external
`markdown.markdown(·, extensions=["extra", "codehilite"])` call, whose
exception the handler swallows into an error string. -/
def markdown_to_html (MARKDOWN_AVAILABLE : Bool)
    (mdlib : String → Except String String) (markdown_text : String) : String :=
  if !MARKDOWN_AVAILABLE then "Error: markdown library not installed"
  else
    match mdlib markdown_text with
    | .ok html => html
    | .error e => "Error converting markdown: " ++ e

/-- Embedding of `html_to_text` (src/server.py:1335-1346): availability
flag first; `soupText` is the external
`BeautifulSoup(·).get_text(separator="\n", strip=True)` call. -/
def html_to_text (BS4_AVAILABLE : Bool)
    (soupText : String → Except String String) (html_text : String) : String :=
  if !BS4_AVAILABLE then "Error: beautifulsoup4 not installed"
  else
    match soupText html_text with
    | .ok t => t
    | .error e => "Error parsing HTML: " ++ e

/-- Values a tool may receive or return, a JSON-like universe covering the
handlers embedded here. -/
inductive Value where
  | str (s : String)
  | num (n : Int)
  | bool (b : Bool)
  | list (items : List Value)
  | dict (entries : List (String × Value))
  | none

/-- Embedding of `youtube_transcript` (src/server.py:493-528): the
availability flag is checked before anything else; the `try` block —
URL parsing, the external `YouTubeTranscriptApi` network call and the
transcript formatting, none of it reachable when the dependency is
missing — is abstracted as `work`. -/
def youtube_transcript (YOUTUBE_AVAILABLE : Bool)
    (work : String → String → Value) (url : String) (language : String := "en") :
    Value :=
  if !YOUTUBE_AVAILABLE then
    .dict [("error", .str "youtube-transcript-api not installed")]
  else work url language

/-- Semantic types a parameter may declare (specification section 4.2,
step 2). -/
inductive ValueTy where
  | str
  | num
  | bool
  | list
  | dict
deriving DecidableEq

/-- Modelled from the spec (section 3, ToolDescriptor): one declared
parameter — name, semantic type, required flag, declared default.  The
registry and dispatch layer lives in the imported FastMCP framework, not
in `src/server.py`, so it is modelled from the specification's own
description. -/
structure ParamSpec where
  name : String
  ty : ValueTy
  required : Bool
  default : Option Value

/-- Modelled from the spec (section 4.2, step 2): coercion of a raw value
to a declared semantic type, modelled as a conformance check that fails on
a mismatched shape. -/
def coerce (ty : ValueTy) (v : Value) : Option Value :=
  match ty, v with
  | .str, .str s => some (.str s)
  | .num, .num n => some (.num n)
  | .bool, .bool b => some (.bool b)
  | .list, .list l => some (.list l)
  | .dict, .dict d => some (.dict d)
  | _, _ => Option.none

/-- Modelled from the spec (section 3): a registered tool — unique name,
declared parameters, handler, description.  A handler receives validated
named arguments and the ambient `World`, and signals failure by raising,
embedded as `Except`. -/
structure ToolDescriptor where
  name : String
  params : List ParamSpec
  handler : List (String × Value) → World → Except String Value
  description : String

/-- Modelled from the spec (section 2): the process-wide registry, a
mapping from tool name to descriptor in registration order. -/
def Registry := List ToolDescriptor

/-- Modelled from the spec (section 4.1): `Registry.lookup`, a pure read
returning the first descriptor with the requested name. -/
def lookupTool (reg : Registry) (name : String) : Option ToolDescriptor :=
  reg.find? fun d => d.name == name

/-- Modelled from the spec (section 4.2, step 2): validate raw arguments
against the declared parameters in declaration order, fail-fast, naming
the first offending parameter; a missing optional parameter takes its
declared default (Python `None` when the declaration has none). -/
def validateArgs : List ParamSpec → List (String × Value) →
    Except String (List (String × Value))
  | [], _ => .ok []
  | p :: ps, args =>
    match List.lookup p.name args with
    | some v =>
      match coerce p.ty v with
      | some v' => (validateArgs ps args).map ((p.name, v') :: ·)
      | Option.none => .error p.name
    | Option.none =>
      if p.required then .error p.name
      else
        (validateArgs ps args).map
          ((p.name, p.default.getD Value.none) :: ·)

/-- Error taxonomy of the specification (section 7). -/
inductive ErrorKind where
  | notFound
  | invalidArgument
  | duplicateName
  | handlerError
deriving DecidableEq

/-- Tagged union returned from every invocation (specification
section 3). -/
inductive InvocationResult where
  | success (value : Value)
  | failure (kind : ErrorKind) (message : String)

/-- Success test on an invocation result. -/
def InvocationResult.isSuccess : InvocationResult → Bool
  | .success _ => true
  | .failure _ _ => false

/-- Failure test on an invocation result. -/
def InvocationResult.isFailure : InvocationResult → Bool
  | .success _ => false
  | .failure _ _ => true

/-- Modelled from the spec (section 4.2): `Dispatcher.invoke` — lookup,
argument validation, handler call inside a failure boundary, envelope.  A
total function: every call returns an `InvocationResult`. -/
def invoke (reg : Registry) (name : String) (args : List (String × Value))
    (w : World) : InvocationResult :=
  match lookupTool reg name with
  | Option.none => .failure .notFound ("unknown tool: " ++ name)
  | some d =>
    match validateArgs d.params args with
    | .error pname => .failure .invalidArgument pname
    | .ok av =>
      match d.handler av w with
      | .ok v => .success v
      | .error msg => .failure .handlerError msg

/-- Modelled from the spec (sections 2 and 5): the serving loop — each
inbound request dispatched against the process registry, which no handler
can reach (no handler in `src/server.py` references the `mcp` object), so
the state carried across requests is the registry alone. -/
def serveLoop (reg : Registry) (w : World) :
    List (String × List (String × Value)) → List InvocationResult × Registry
  | [] => ([], reg)
  | (n, a) :: rest =>
    let r := invoke reg n a w
    let (rs, reg') := serveLoop reg w rest
    (r :: rs, reg')

/-- Names of the tool functions registered with `@mcp.tool()` at module
load, in source order (src/server.py:72-1408). -/
def registeredToolNames : List String :=
  ["echo_tool", "reverse_text", "word_count", "uppercase", "lowercase",
    "split_text", "join_text", "title_case", "capitalize_first",
    "remove_whitespace", "normalize_whitespace", "extract_emails",
    "extract_urls", "extract_phone_numbers", "slug_from_text",
    "encode_base64", "decode_base64", "hash_text", "generate_uuid",
    "generate_password", "format_json", "minify_json", "current_timestamp",
    "text_statistics", "find_and_replace", "sort_lines", "remove_duplicates",
    "word_frequency", "create_file", "read_file", "list_directory",
    "file_info", "search_files", "youtube_transcript",
    "youtube_transcript_with_timestamps", "fetch_webpage", "extract_links",
    "http_request", "ping_host", "test_api_endpoint", "system_info",
    "get_environment_variable", "list_environment_variables",
    "execute_command", "get_current_directory", "get_user_home",
    "process_csv", "json_transform", "calculate", "statistics_summary",
    "generate_function", "generate_class", "generate_api_client",
    "generate_dockerfile", "generate_makefile", "generate_readme",
    "validate_email", "validate_url", "markdown_to_html", "html_to_text",
    "parse_date", "timezone_convert"]

/-- Strings carried by a list of values, `none` on any non-string. -/
def strList : List Value → Option (List String)
  | [] => some []
  | .str s :: rest => (strList rest).map (s :: ·)
  | _ => Option.none

/-- Positional-argument wrappers around the embedded handlers, keyed by
tool name: the slice of the registry needed to compare invocations of the
same tool under different ambient worlds. -/
def embeddedTools : List (String × (List Value → World → Except String Value)) :=
  [("echo_tool", fun args _ =>
      match args with
      | [.str text] => .ok (.str (echo_tool text))
      | _ => .error "TypeError"),
    ("reverse_text", fun args _ =>
      match args with
      | [.str text] => .ok (.str (reverse_text text))
      | _ => .error "TypeError"),
    ("split_text", fun args _ =>
      match args with
      | [.str text] =>
        match split_text text " " with
        | .ok parts => .ok (.list (parts.map .str))
        | .error _ => .error "ValueError"
      | [.str text, .str delimiter] =>
        match split_text text delimiter with
        | .ok parts => .ok (.list (parts.map .str))
        | .error _ => .error "ValueError"
      | _ => .error "TypeError"),
    ("join_text", fun args _ =>
      match args with
      | [.list parts, .str delimiter] =>
        match strList parts with
        | some ss => .ok (.str (join_text ss delimiter))
        | Option.none => .error "TypeError"
      | [.list parts] =>
        match strList parts with
        | some ss => .ok (.str (join_text ss " "))
        | Option.none => .error "TypeError"
      | _ => .error "TypeError"),
    ("encode_base64", fun args _ =>
      match args with
      | [.str text] => .ok (.str (encode_base64 text))
      | _ => .error "TypeError"),
    ("decode_base64", fun args _ =>
      match args with
      | [.str encoded_text] => .ok (.str (decode_base64 encoded_text))
      | _ => .error "TypeError"),
    ("generate_uuid", fun args w =>
      match args with
      | [] => .ok (.str (generate_uuid w))
      | _ => .error "TypeError"),
    ("generate_password", fun args w =>
      match args with
      | [] => .ok (.str (generate_password w 12 true))
      | [.num (Int.ofNat n)] => .ok (.str (generate_password w n true))
      | [.num (Int.ofNat n), .bool b] => .ok (.str (generate_password w n b))
      | _ => .error "TypeError")]

/-- Invocation of one embedded tool by name on positional arguments under
an ambient world. -/
def runTool (name : String) (args : List Value) (w : World) :
    Option (Except String Value) :=
  (List.lookup name embeddedTools).map fun h => h args w

/-- Embedded tools whose source reads no ambient state at all: no
randomness, clock, environment, filesystem, network or subprocess.  Other
tools in `server.py` do read such state (`get_environment_variable`,
`read_file`, `create_file`, `execute_command`, `fetch_webpage`, ...), so
no determinism statement is made about them. -/
def deterministicToolNames : List String :=
  ["echo_tool", "reverse_text", "split_text", "join_text", "encode_base64",
    "decode_base64"]

/-- Concrete ambient world whose entropy and choice streams are constantly
zero. -/
def worldA : World := ⟨fun _ => 0, fun _ => 0⟩

/-- Concrete ambient world whose entropy and choice streams are constantly
one. -/
def worldB : World := ⟨fun _ => 1, fun _ => 1⟩

/-- Concrete descriptor of a tool whose handler always raises, for
exercising the dispatcher's failure boundary. -/
def demoDescriptor : ToolDescriptor :=
  ⟨"boom", [], fun _ _ => .error "boom message", "always raises"⟩

/-- Concrete one-tool registry holding `demoDescriptor`. -/
def demoRegistry : Registry := [demoDescriptor]

/-- Concrete stand-in for the external markdown renderer. -/
def mdlibDemo : String → Except String String := fun s => .ok s

/-- Concrete descriptor wrapping `markdown_to_html` with the markdown
dependency unavailable, as on a host without the `markdown` package. -/
def markdownDescriptor : ToolDescriptor :=
  ⟨"markdown_to_html", [⟨"markdown_text", .str, true, Option.none⟩],
    (fun args _ =>
      match List.lookup "markdown_text" args with
      | some (.str t) => .ok (.str (markdown_to_html false mdlibDemo t))
      | _ => .error "TypeError"),
    "Convert Markdown to HTML"⟩

/-- Concrete one-tool registry holding `markdownDescriptor`. -/
def markdownRegistry : Registry := [markdownDescriptor]

/-- Concrete stand-in for the external hashlib digests. -/
def hashImplDemo : HashImpl :=
  ⟨fun _ => "d0", fun _ => "d1", fun _ => "d2", fun _ => "d3"⟩

/-- C9: for every string `text`, `split_text(text, "")` raises — Python's
`str.split` rejects an empty separator with `ValueError` — instead of
returning a list. -/
theorem split_text_empty_delimiter_raises (text : String) :
    split_text text "" = .error (.valueError "empty separator") := rfl

/-- C5: tool names are unique across the registrations performed at module
load in `server.py`, so each registered name occurs exactly once in an
enumeration of the registry. -/
theorem registered_tool_names_unique :
    registeredToolNames.Nodup ∧
      ∀ n ∈ registeredToolNames, List.count n registeredToolNames = 1 := by
  have h : registeredToolNames.Nodup := by decide
  exact ⟨h, fun n hn => List.count_eq_one_of_mem h hn⟩

/-- Witness for C5 at a concrete registered name. -/
theorem registered_tool_names_unique_witness :
    List.count "echo_tool" registeredToolNames = 1 :=
  registered_tool_names_unique.2 "echo_tool" (by decide)

/-- C6: the registry is read-only under serving — after any sequence of
invocations the registry equals the one built at startup, and every
response is computed against that same registry. -/
theorem registry_readonly_under_serving (reg : Registry) (w : World)
    (reqs : List (String × List (String × Value))) :
    (serveLoop reg w reqs).2 = reg ∧
      (serveLoop reg w reqs).1 = reqs.map fun req => invoke reg req.1 req.2 w := by
  induction reqs with
  | nil => exact ⟨rfl, rfl⟩
  | cons r rest ih =>
    cases r with
    | mk n a => simp [serveLoop, ih.1, ih.2]

/-- C4: `invoke` is a total function whose result is exactly one of
`Success` or `Failure`, and an exception raised inside the handler is
converted to `Failure` with kind `HandlerError`. -/
theorem invoke_total_and_enveloped :
    (∀ (reg : Registry) (name : String) (args : List (String × Value))
        (w : World),
        (invoke reg name args w).isSuccess = !(invoke reg name args w).isFailure) ∧
      ∀ (reg : Registry) (name : String) (args : List (String × Value))
        (w : World) (d : ToolDescriptor) (av : List (String × Value))
        (msg : String),
        lookupTool reg name = some d → validateArgs d.params args = .ok av →
        d.handler av w = .error msg →
        invoke reg name args w = .failure .handlerError msg := by
  constructor
  · intro reg name args w
    cases h : invoke reg name args w <;> rfl
  · intro reg name args w d av msg h1 h2 h3
    simp [invoke, h1, h2, h3]

/-- Witness for C4 at a concrete registry whose only handler raises. -/
theorem invoke_total_and_enveloped_witness :
    invoke demoRegistry "boom" [] worldA = .failure .handlerError "boom message" :=
  invoke_total_and_enveloped.2 demoRegistry "boom" [] worldA demoDescriptor []
    "boom message" rfl rfl rfl

/-- C3 counterexample: with the markdown dependency unavailable, invoking
`markdown_to_html` yields a `Success` envelope around the string
`"Error: markdown library not installed"`, not
`Failure{kind: HandlerError, message: "capability unavailable"}`. -/
theorem unavailable_dependency_pseudo_success :
    invoke markdownRegistry "markdown_to_html" [("markdown_text", .str "# Hi")]
        worldA = .success (.str "Error: markdown library not installed") ∧
      invoke markdownRegistry "markdown_to_html" [("markdown_text", .str "# Hi")]
        worldA ≠ .failure .handlerError "capability unavailable" := by
  have h1 : invoke markdownRegistry "markdown_to_html"
      [("markdown_text", .str "# Hi")] worldA
      = .success (.str "Error: markdown library not installed") := rfl
  refine ⟨h1, fun h => ?_⟩
  rw [h1] at h
  exact InvocationResult.noConfusion h

/-- C3 amended: when an optional dependency is unavailable the handler
does return before its real work runs, but with an in-band error value
inside a successful-looking payload — independent of the external library
and of the input — rather than a `Failure` envelope. -/
theorem unavailable_dependency_early_error_value :
    (∀ (mdlib : String → Except String String) (text : String),
        markdown_to_html false mdlib text
          = "Error: markdown library not installed") ∧
      (∀ (soupText : String → Except String String) (html : String),
        html_to_text false soupText html
          = "Error: beautifulsoup4 not installed") ∧
      ∀ (work : String → String → Value) (url lang : String),
        youtube_transcript false work url lang
          = .dict [("error", .str "youtube-transcript-api not installed")] :=
  ⟨fun _ _ => rfl, fun _ _ => rfl, fun _ _ _ => rfl⟩

/-- C1 counterexample: `generate_uuid` and `generate_password` return
different results on two invocations with identical arguments when the
ambient entropy differs, so their results are not determined solely by
their arguments. -/
theorem random_tools_world_dependent :
    generate_uuid worldA ≠ generate_uuid worldB ∧
      generate_password worldA 12 true ≠ generate_password worldB 12 true := by
  decide

/-- C1 amended: the claim's universal determinism fails for the tools that
read ambient state — the counterexample exhibits `generate_uuid` and
`generate_password` — and is asserted here only for the tools that read
none: the pure text, split/join and base64 tools return a result
determined solely by their arguments, two invocations with the same
arguments agreeing under any two ambient worlds. -/
theorem deterministic_tools_world_independent :
    ∀ name ∈ deterministicToolNames, ∀ (args : List Value) (w w' : World),
      runTool name args w = runTool name args w' := by
  intro name hname args w w'
  fin_cases hname <;> rfl

/-- Witness for C1 amended at a concrete tool, argument and world pair. -/
theorem deterministic_tools_world_independent_witness :
    runTool "reverse_text" [.str "ab"] worldA
      = runTool "reverse_text" [.str "ab"] worldB :=
  deterministic_tools_world_independent "reverse_text" (by decide) [.str "ab"]
    worldA worldB

/-- C2 counterexample: `"!!!!"` is not valid base64, yet `decode_base64`
returns the empty string — Python's lenient decoder discards characters
outside the alphabet before the padding check — not a string beginning
with `"Error decoding base64:"`. -/
theorem decode_base64_lenient_success_on_invalid :
    validBase64 "!!!!" = false ∧ decode_base64 "!!!!" = "" ∧
      ("".startsWith "Error decoding base64:") = false := by
  refine ⟨by decide, by decide, by decide⟩

/-- C2 amended: whenever the internal decode raises — wrong padding, a
lone trailing data character, non-ASCII input, or a non-UTF-8 payload —
`decode_base64` swallows the exception and returns a string beginning with
`"Error decoding base64:"`; and `hash_text` on any algorithm name outside
md5/sha1/sha256/sha512 returns the fixed unsupported-algorithm message
instead of raising. -/
theorem handlers_return_error_strings :
    (∀ (s : String) (e : DecodeErr), pyB64DecodeUtf8 s.data = .error e →
        decode_base64 s = "Error decoding base64: " ++ e.render) ∧
      ∀ (impl : HashImpl) (text algorithm : String),
        algorithm ∉ ["md5", "sha1", "sha256", "sha512"] →
        hash_text impl text algorithm
          = "Unsupported algorithm. Choose from: md5, sha1, sha256, sha512" := by
  constructor
  · intro s e h
    simp [decode_base64, h]
  · intro impl text alg h
    simp only [List.mem_cons, List.not_mem_nil, or_false, not_or] at h
    obtain ⟨h1, h2, h3, h4⟩ := h
    simp [hash_text, hashAlgos, List.lookup, beq_eq_false_iff_ne.mpr h1,
      beq_eq_false_iff_ne.mpr h2, beq_eq_false_iff_ne.mpr h3,
      beq_eq_false_iff_ne.mpr h4]

/-- Witness for C2 amended: a lone data character fails the decode and
yields the error-prefixed string, and an unsupported algorithm name yields
the fixed message. -/
theorem handlers_return_error_strings_witness :
    decode_base64 "A" = "Error decoding base64: " ++ DecodeErr.oneMoreChar.render ∧
      hash_text hashImplDemo "x" "sha3"
        = "Unsupported algorithm. Choose from: md5, sha1, sha256, sha512" :=
  ⟨handlers_return_error_strings.1 "A" .oneMoreChar rfl,
    handlers_return_error_strings.2 hashImplDemo "x" "sha3" (by decide)⟩

/-- Joining the pieces produced by `splitAux` behind a leading piece
restores the separator-laden text: the `joinTail` side of the split/join
round trip, by induction on the scan fuel. -/
theorem joinTail_splitAux (d0 : Char) (dtl : List Char) :
    ∀ (fuel : Nat) (s cur : List Char), s.length ≤ fuel →
      joinTail (d0 :: dtl) (splitAux d0 dtl fuel s cur)
        = (d0 :: dtl) ++ cur.reverse ++ s := by
  intro fuel
  induction fuel with
  | zero =>
    intro s cur h
    have hs : s = [] := List.eq_nil_of_length_eq_zero (by omega)
    subst hs
    simp [splitAux, joinTail]
  | succ n ih =>
    intro s cur h
    match s with
    | [] => simp [splitAux, joinTail]
    | c :: rest =>
      simp only [splitAux]
      by_cases hp : (d0 :: dtl).isPrefixOf (c :: rest)
      · rw [if_pos hp]
        obtain ⟨t, ht⟩ := List.isPrefixOf_iff_prefix.mp hp
        have hdrop : rest.drop dtl.length = t := by
          have h2 := congrArg (List.drop (d0 :: dtl).length) ht
          rw [List.drop_left] at h2
          simpa using h2.symm
        have hlen : (rest.drop dtl.length).length ≤ n := by
          simp only [List.length_drop]
          simp only [List.length_cons] at h
          omega
        simp only [joinTail]
        rw [ih _ _ hlen, hdrop]
        rw [← ht]
        simp
      · rw [if_neg hp]
        have hlen : rest.length ≤ n := by
          simp only [List.length_cons] at h
          omega
        rw [ih rest (c :: cur) hlen]
        simp

/-- Joining the pieces produced by `splitAux` restores the text: the
`joinWith` side of the split/join round trip. -/
theorem joinWith_splitAux (d0 : Char) (dtl : List Char) :
    ∀ (fuel : Nat) (s cur : List Char), s.length ≤ fuel →
      joinWith (d0 :: dtl) (splitAux d0 dtl fuel s cur) = cur.reverse ++ s := by
  intro fuel
  induction fuel with
  | zero =>
    intro s cur h
    have hs : s = [] := List.eq_nil_of_length_eq_zero (by omega)
    subst hs
    simp [splitAux, joinWith, joinTail]
  | succ n ih =>
    intro s cur h
    match s with
    | [] => simp [splitAux, joinWith, joinTail]
    | c :: rest =>
      simp only [splitAux]
      by_cases hp : (d0 :: dtl).isPrefixOf (c :: rest)
      · rw [if_pos hp]
        obtain ⟨t, ht⟩ := List.isPrefixOf_iff_prefix.mp hp
        have hdrop : rest.drop dtl.length = t := by
          have h2 := congrArg (List.drop (d0 :: dtl).length) ht
          rw [List.drop_left] at h2
          simpa using h2.symm
        have hlen : (rest.drop dtl.length).length ≤ n := by
          simp only [List.length_drop]
          simp only [List.length_cons] at h
          omega
        simp only [joinWith]
        rw [joinTail_splitAux d0 dtl n _ _ hlen, hdrop]
        rw [← ht]
        simp
      · rw [if_neg hp]
        have hlen : rest.length ≤ n := by
          simp only [List.length_cons] at h
          omega
        rw [ih rest (c :: cur) hlen]
        simp

/-- C8: split/join round-trip — for every text and every non-empty
delimiter, joining the pieces `split_text` produced with the same
delimiter restores the text. -/
theorem split_join_roundtrip (text delimiter : String) (parts : List String)
    (h : split_text text delimiter = .ok parts) :
    join_text parts delimiter = text := by
  unfold split_text at h
  cases hd : delimiter.data with
  | nil =>
    rw [hd] at h
    exact Except.noConfusion h
  | cons d0 dtl =>
    rw [hd] at h
    have hp : parts
        = (splitAux d0 dtl text.data.length text.data []).map
            fun l => (⟨l⟩ : String) := by
      cases h
      rfl
    subst hp
    unfold join_text
    rw [hd]
    have hcomp : (String.data ∘ fun l : List Char => (⟨l⟩ : String)) = id := rfl
    have hmaps :
        ((splitAux d0 dtl text.data.length text.data []).map
            (fun l => (⟨l⟩ : String))).map String.data
          = splitAux d0 dtl text.data.length text.data [] := by
      rw [List.map_map, hcomp, List.map_id]
    rw [hmaps]
    rw [joinWith_splitAux d0 dtl text.data.length text.data [] le_rfl]
    simp

/-- Witness for C8 at a concrete text and delimiter. -/
theorem split_join_roundtrip_witness : join_text ["a", "b"] "," = "a,b" :=
  split_join_roundtrip "a,b" "," ["a", "b"] rfl

/-- Alphabet characters decode back to their 6-bit values. -/
theorem b64Table_b64Char : ∀ v, v < 64 → b64Table (b64Char v) = some v := by
  decide

/-- Alphabet characters are distinct from the padding character. -/
theorem b64Char_ne_pad : ∀ v, v < 64 → b64Char v ≠ '=' := by
  decide

/-- Alphabet characters are ASCII. -/
theorem b64Char_ascii : ∀ v, v < 64 → (b64Char v).toNat < 128 := by
  decide

/-- One decode-loop step on a padding character. -/
theorem b64Loop_pad (rest : List Char) (qp lc pads : Nat) (acc : List Nat) :
    b64DecodeLoop ('=' :: rest) qp lc pads acc =
      if 2 ≤ qp then
        if 4 ≤ qp + pads + 1 then .ok acc
        else b64DecodeLoop rest qp lc (pads + 1) acc
      else b64DecodeLoop rest qp lc pads acc := rfl

/-- One decode-loop step on a data character at quad position 0. -/
theorem b64Loop_data0 (v : Nat) (hv : v < 64) (rest : List Char)
    (lc pads : Nat) (acc : List Nat) :
    b64DecodeLoop (b64Char v :: rest) 0 lc pads acc
      = b64DecodeLoop rest 1 v 0 acc := by
  simp only [b64DecodeLoop]
  rw [if_neg (b64Char_ne_pad v hv), b64Table_b64Char v hv]

/-- One decode-loop step on a data character at quad position 1: the first
byte of the quad is emitted. -/
theorem b64Loop_data1 (v : Nat) (hv : v < 64) (rest : List Char)
    (lc pads : Nat) (acc : List Nat) :
    b64DecodeLoop (b64Char v :: rest) 1 lc pads acc
      = b64DecodeLoop rest 2 (v % 16) 0 (acc ++ [lc * 4 + v / 16]) := by
  simp only [b64DecodeLoop]
  rw [if_neg (b64Char_ne_pad v hv), b64Table_b64Char v hv]

/-- One decode-loop step on a data character at quad position 2: the
second byte of the quad is emitted. -/
theorem b64Loop_data2 (v : Nat) (hv : v < 64) (rest : List Char)
    (lc pads : Nat) (acc : List Nat) :
    b64DecodeLoop (b64Char v :: rest) 2 lc pads acc
      = b64DecodeLoop rest 3 (v % 4) 0 (acc ++ [lc * 16 + v / 4]) := by
  simp only [b64DecodeLoop]
  rw [if_neg (b64Char_ne_pad v hv), b64Table_b64Char v hv]

/-- One decode-loop step on a data character at quad position 3: the third
byte of the quad is emitted and the quad position resets. -/
theorem b64Loop_data3 (v : Nat) (hv : v < 64) (rest : List Char)
    (lc pads : Nat) (acc : List Nat) :
    b64DecodeLoop (b64Char v :: rest) 3 lc pads acc
      = b64DecodeLoop rest 0 0 0 (acc ++ [lc * 64 + v]) := by
  simp only [b64DecodeLoop]
  rw [if_neg (b64Char_ne_pad v hv), b64Table_b64Char v hv]

/-- Base64 encodings of byte lists consist of ASCII characters. -/
theorem b64Encode_ascii (bs : List Nat) (h : ∀ b ∈ bs, b < 256) :
    ∀ c ∈ b64EncodeBytes bs, c.toNat < 128 := by
  match bs with
  | [] =>
    intro c hc
    simp [b64EncodeBytes] at hc
  | [b1] =>
    have hb1 : b1 < 256 := h b1 (by simp)
    intro c hc
    simp only [b64EncodeBytes, List.mem_cons, List.not_mem_nil, or_false] at hc
    rcases hc with rfl | rfl | rfl | rfl
    · exact b64Char_ascii _ (by omega)
    · exact b64Char_ascii _ (by omega)
    · decide
    · decide
  | [b1, b2] =>
    have hb1 : b1 < 256 := h b1 (by simp)
    have hb2 : b2 < 256 := h b2 (by simp)
    intro c hc
    simp only [b64EncodeBytes, List.mem_cons, List.not_mem_nil, or_false] at hc
    rcases hc with rfl | rfl | rfl | rfl
    · exact b64Char_ascii _ (by omega)
    · exact b64Char_ascii _ (by omega)
    · exact b64Char_ascii _ (by omega)
    · decide
  | b1 :: b2 :: b3 :: rest =>
    have hb1 : b1 < 256 := h b1 (by simp)
    have hb2 : b2 < 256 := h b2 (by simp)
    have hb3 : b3 < 256 := h b3 (by simp)
    intro c hc
    simp only [b64EncodeBytes, List.mem_cons] at hc
    rcases hc with rfl | rfl | rfl | rfl | hc
    · exact b64Char_ascii _ (by omega)
    · exact b64Char_ascii _ (by omega)
    · exact b64Char_ascii _ (by omega)
    · exact b64Char_ascii _ (by omega)
    · exact b64Encode_ascii rest (fun b hb => h b (by simp [hb])) c hc

/-- Decoding the base64 encoding of a byte list recovers the bytes, for
any accumulator: the loop consumes each encoded quad and appends the three
bytes, and the padded tails close with an `ok`. -/
theorem b64Loop_encode (bs : List Nat) (h : ∀ b ∈ bs, b < 256)
    (acc : List Nat) :
    b64DecodeLoop (b64EncodeBytes bs) 0 0 0 acc = .ok (acc ++ bs) := by
  match bs with
  | [] => simp [b64EncodeBytes, b64DecodeLoop]
  | [b1] =>
    have hb1 : b1 < 256 := h b1 (by simp)
    show b64DecodeLoop
        [b64Char (b1 / 4), b64Char (b1 % 4 * 16), '=', '='] 0 0 0 acc
      = .ok (acc ++ [b1])
    rw [b64Loop_data0 (b1 / 4) (by omega), b64Loop_data1 (b1 % 4 * 16) (by omega)]
    rw [show b1 / 4 * 4 + b1 % 4 * 16 / 16 = b1 from by omega]
    rfl
  | [b1, b2] =>
    have hb1 : b1 < 256 := h b1 (by simp)
    have hb2 : b2 < 256 := h b2 (by simp)
    show b64DecodeLoop
        [b64Char (b1 / 4), b64Char (b1 % 4 * 16 + b2 / 16),
          b64Char (b2 % 16 * 4), '='] 0 0 0 acc
      = .ok (acc ++ [b1, b2])
    rw [b64Loop_data0 (b1 / 4) (by omega),
      b64Loop_data1 (b1 % 4 * 16 + b2 / 16) (by omega),
      b64Loop_data2 (b2 % 16 * 4) (by omega)]
    rw [show b1 / 4 * 4 + (b1 % 4 * 16 + b2 / 16) / 16 = b1 from by omega]
    rw [show (b1 % 4 * 16 + b2 / 16) % 16 * 16 + b2 % 16 * 4 / 4 = b2 from by
      omega]
    show (Except.ok (acc ++ [b1] ++ [b2]) : Except DecodeErr (List Nat))
      = .ok (acc ++ [b1, b2])
    rw [List.append_assoc]
    rfl
  | b1 :: b2 :: b3 :: rest =>
    have hb1 : b1 < 256 := h b1 (by simp)
    have hb2 : b2 < 256 := h b2 (by simp)
    have hb3 : b3 < 256 := h b3 (by simp)
    show b64DecodeLoop
        (b64Char (b1 / 4) :: b64Char (b1 % 4 * 16 + b2 / 16) ::
          b64Char (b2 % 16 * 4 + b3 / 64) :: b64Char (b3 % 64) ::
          b64EncodeBytes rest) 0 0 0 acc
      = .ok (acc ++ (b1 :: b2 :: b3 :: rest))
    rw [b64Loop_data0 (b1 / 4) (by omega),
      b64Loop_data1 (b1 % 4 * 16 + b2 / 16) (by omega),
      b64Loop_data2 (b2 % 16 * 4 + b3 / 64) (by omega),
      b64Loop_data3 (b3 % 64) (by omega)]
    rw [show b1 / 4 * 4 + (b1 % 4 * 16 + b2 / 16) / 16 = b1 from by omega]
    rw [show (b1 % 4 * 16 + b2 / 16) % 16 * 16 + (b2 % 16 * 4 + b3 / 64) / 4 = b2
      from by omega]
    rw [show (b2 % 16 * 4 + b3 / 64) % 4 * 64 + b3 % 64 = b3 from by omega]
    rw [b64Loop_encode rest (fun b hb => h b (by simp [hb]))
      (acc ++ [b1] ++ [b2] ++ [b3])]
    simp

/-- Unicode scalar values of `Char` never lie in the surrogate range and
stay below 0x110000. -/
theorem char_valid_cases (c : Char) :
    c.toNat < 55296 ∨ (57344 ≤ c.toNat ∧ c.toNat < 1114112) := by
  have h := c.valid
  simp only [UInt32.isValidChar, Nat.isValidChar, Char.toNat] at h ⊢
  omega

/-- Evaluation of the UTF-8 decoder on a two-byte sequence head within the
valid ranges. -/
theorem utf8DecodeOne_two (b1 b2 : Nat) (rest : List Nat)
    (h1 : 0xC2 ≤ b1) (h2 : b1 < 0xE0) (h3 : 0x80 ≤ b2) (h4 : b2 < 0xC0) :
    utf8DecodeOne (b1 :: b2 :: rest)
      = some (Char.ofNat ((b1 - 0xC0) * 64 + (b2 - 0x80)), rest) := by
  simp only [utf8DecodeOne]
  rw [if_neg (by omega), if_pos (by omega), if_neg (by omega),
    if_pos (show (0x80 : Nat) ≤ b2 ∧ b2 < 0xC0 from ⟨h3, h4⟩)]

/-- Evaluation of the UTF-8 decoder on a three-byte sequence head within
the valid ranges. -/
theorem utf8DecodeOne_three (b1 b2 b3 : Nat) (rest : List Nat)
    (h1 : 0xE0 ≤ b1) (h2 : b1 < 0xF0) (h3 : utf8Lo3 b1 ≤ b2)
    (h4 : b2 < utf8Hi3 b1) (h5 : 0x80 ≤ b3) (h6 : b3 < 0xC0) :
    utf8DecodeOne (b1 :: b2 :: b3 :: rest)
      = some (Char.ofNat ((b1 - 0xE0) * 4096 + (b2 - 0x80) * 64 + (b3 - 0x80)),
          rest) := by
  simp only [utf8DecodeOne]
  rw [if_neg (by omega), if_neg (by omega), if_pos h2,
    if_pos (show utf8Lo3 b1 ≤ b2 ∧ b2 < utf8Hi3 b1 ∧ 0x80 ≤ b3 ∧ b3 < 0xC0 from
      ⟨h3, h4, h5, h6⟩)]

/-- Evaluation of the UTF-8 decoder on a four-byte sequence head within
the valid ranges. -/
theorem utf8DecodeOne_four (b1 b2 b3 b4 : Nat) (rest : List Nat)
    (h1 : 0xF0 ≤ b1) (h2 : b1 < 0xF5) (h3 : utf8Lo4 b1 ≤ b2)
    (h4 : b2 < utf8Hi4 b1) (h5 : 0x80 ≤ b3) (h6 : b3 < 0xC0)
    (h7 : 0x80 ≤ b4) (h8 : b4 < 0xC0) :
    utf8DecodeOne (b1 :: b2 :: b3 :: b4 :: rest)
      = some (Char.ofNat
            ((b1 - 0xF0) * 262144 + (b2 - 0x80) * 4096 + (b3 - 0x80) * 64 +
              (b4 - 0x80)),
          rest) := by
  simp only [utf8DecodeOne]
  rw [if_neg (by omega), if_neg (by omega), if_neg (by omega), if_pos h2,
    if_pos (show utf8Lo4 b1 ≤ b2 ∧ b2 < utf8Hi4 b1 ∧ 0x80 ≤ b3 ∧ b3 < 0xC0 ∧
        0x80 ≤ b4 ∧ b4 < 0xC0 from ⟨h3, h4, h5, h6, h7, h8⟩)]

/-- Decoding one character off the UTF-8 encoding of `c` in front of any
byte tail recovers exactly `c` and the tail. -/
theorem utf8DecodeOne_encodeChar (c : Char) (rest : List Nat) :
    utf8DecodeOne (utf8EncodeChar c ++ rest) = some (c, rest) := by
  have hval := char_valid_cases c
  by_cases h1 : c.toNat < 0x80
  · rw [show utf8EncodeChar c = [c.toNat] from by simp [utf8EncodeChar, h1]]
    show utf8DecodeOne (c.toNat :: rest) = _
    simp only [utf8DecodeOne]
    rw [if_pos h1, Char.ofNat_toNat]
  · by_cases h2 : c.toNat < 0x800
    · rw [show utf8EncodeChar c = [0xC0 + c.toNat / 64, 0x80 + c.toNat % 64]
        from by simp [utf8EncodeChar, h1, h2]]
      show utf8DecodeOne ((0xC0 + c.toNat / 64) :: (0x80 + c.toNat % 64) :: rest)
        = _
      rw [utf8DecodeOne_two _ _ _ (by omega) (by omega) (by omega) (by omega)]
      rw [show (0xC0 + c.toNat / 64 - 0xC0) * 64 + (0x80 + c.toNat % 64 - 0x80)
          = c.toNat from by omega]
      rw [Char.ofNat_toNat]
    · by_cases h3 : c.toNat < 0x10000
      · rw [show utf8EncodeChar c
            = [0xE0 + c.toNat / 4096, 0x80 + c.toNat / 64 % 64,
                0x80 + c.toNat % 64]
          from by simp [utf8EncodeChar, h1, h2, h3]]
        show utf8DecodeOne ((0xE0 + c.toNat / 4096) ::
            (0x80 + c.toNat / 64 % 64) :: (0x80 + c.toNat % 64) :: rest) = _
        have hlo : utf8Lo3 (0xE0 + c.toNat / 4096) ≤ 0x80 + c.toNat / 64 % 64 := by
          unfold utf8Lo3
          split_ifs with hx
          · omega
          · omega
        have hhi : 0x80 + c.toNat / 64 % 64 < utf8Hi3 (0xE0 + c.toNat / 4096) := by
          unfold utf8Hi3
          split_ifs with hx
          · omega
          · omega
        rw [utf8DecodeOne_three _ _ _ _ (by omega) (by omega) hlo hhi (by omega)
          (by omega)]
        rw [show (0xE0 + c.toNat / 4096 - 0xE0) * 4096 +
            (0x80 + c.toNat / 64 % 64 - 0x80) * 64 + (0x80 + c.toNat % 64 - 0x80)
          = c.toNat from by omega]
        rw [Char.ofNat_toNat]
      · rw [show utf8EncodeChar c
            = [0xF0 + c.toNat / 262144, 0x80 + c.toNat / 4096 % 64,
                0x80 + c.toNat / 64 % 64, 0x80 + c.toNat % 64]
          from by simp [utf8EncodeChar, h1, h2, h3]]
        show utf8DecodeOne ((0xF0 + c.toNat / 262144) ::
            (0x80 + c.toNat / 4096 % 64) :: (0x80 + c.toNat / 64 % 64) ::
            (0x80 + c.toNat % 64) :: rest) = _
        have hlo : utf8Lo4 (0xF0 + c.toNat / 262144) ≤ 0x80 + c.toNat / 4096 % 64 := by
          unfold utf8Lo4
          split_ifs with hx
          · omega
          · omega
        have hhi : 0x80 + c.toNat / 4096 % 64 < utf8Hi4 (0xF0 + c.toNat / 262144) := by
          unfold utf8Hi4
          split_ifs with hx
          · omega
          · omega
        rw [utf8DecodeOne_four _ _ _ _ _ (by omega) (by omega) hlo hhi (by omega)
          (by omega) (by omega) (by omega)]
        rw [show (0xF0 + c.toNat / 262144 - 0xF0) * 262144 +
            (0x80 + c.toNat / 4096 % 64 - 0x80) * 4096 +
            (0x80 + c.toNat / 64 % 64 - 0x80) * 64 + (0x80 + c.toNat % 64 - 0x80)
          = c.toNat from by omega]
        rw [Char.ofNat_toNat]

/-- UTF-8 encodings of single characters are non-empty. -/
theorem utf8EncodeChar_length_pos (c : Char) : 1 ≤ (utf8EncodeChar c).length := by
  unfold utf8EncodeChar
  split_ifs <;> simp

/-- One driver step of the UTF-8 decoder on non-empty bytes whose leading
character decodes. -/
theorem utf8DecodeLoop_step (fuel : Nat) (bs : List Nat) (c : Char)
    (rest2 : List Nat) (hone : utf8DecodeOne bs = some (c, rest2))
    (hne : bs ≠ []) :
    utf8DecodeLoop (fuel + 1) bs = (utf8DecodeLoop fuel rest2).map (c :: ·) := by
  cases bs with
  | nil => exact absurd rfl hne
  | cons b rest => simp only [utf8DecodeLoop, hone]

/-- Decoding the UTF-8 encoding of any character sequence recovers it, for
any sufficient fuel. -/
theorem utf8DecodeLoop_encode :
    ∀ (fuel : Nat) (cs : List Char), (utf8Encode cs).length ≤ fuel →
      utf8DecodeLoop fuel (utf8Encode cs) = some cs := by
  intro fuel
  induction fuel with
  | zero =>
    intro cs h
    cases cs with
    | nil => rfl
    | cons c cs2 =>
      exfalso
      have hpos := utf8EncodeChar_length_pos c
      have hlen : (utf8Encode (c :: cs2)).length
          = (utf8EncodeChar c).length + (utf8Encode cs2).length := by
        show (utf8EncodeChar c ++ utf8Encode cs2).length = _
        simp
      omega
  | succ n ih =>
    intro cs h
    cases cs with
    | nil => rfl
    | cons c cs2 =>
      have hpos := utf8EncodeChar_length_pos c
      have hlen : (utf8Encode (c :: cs2)).length
          = (utf8EncodeChar c).length + (utf8Encode cs2).length := by
        show (utf8EncodeChar c ++ utf8Encode cs2).length = _
        simp
      have hone : utf8DecodeOne (utf8Encode (c :: cs2))
          = some (c, utf8Encode cs2) :=
        utf8DecodeOne_encodeChar c (utf8Encode cs2)
      have hne : utf8Encode (c :: cs2) ≠ [] := by
        intro hnil
        rw [hnil] at hlen
        simp at hlen
        omega
      rw [utf8DecodeLoop_step n _ _ _ hone hne]
      rw [ih cs2 (by omega)]
      rfl

/-- Decoding the UTF-8 encoding of any character sequence recovers it. -/
theorem utf8Decode_encode (cs : List Char) :
    utf8Decode (utf8Encode cs) = some cs :=
  utf8DecodeLoop_encode (utf8Encode cs).length cs le_rfl

/-- UTF-8 encodings consist of bytes. -/
theorem utf8Encode_lt_256 (cs : List Char) : ∀ b ∈ utf8Encode cs, b < 256 := by
  induction cs with
  | nil =>
    intro b hb
    simp [utf8Encode] at hb
  | cons c cs ih =>
    intro b hb
    have hval := char_valid_cases c
    rw [show utf8Encode (c :: cs) = utf8EncodeChar c ++ utf8Encode cs from rfl,
      List.mem_append] at hb
    rcases hb with hb | hb
    · unfold utf8EncodeChar at hb
      split_ifs at hb <;>
        simp only [List.mem_cons, List.not_mem_nil, or_false] at hb <;> omega
    · exact ih b hb

/-- Assembly of the successful decode path on ASCII input whose loop and
UTF-8 stages both succeed. -/
theorem pyB64DecodeUtf8_ok (cs : List Char) (bytes : List Nat)
    (chars : List Char) (hascii : ∀ c ∈ cs, c.toNat < 128)
    (hloop : b64DecodeLoop cs 0 0 0 [] = .ok bytes)
    (hutf : utf8Decode bytes = some chars) :
    pyB64DecodeUtf8 cs = .ok ⟨chars⟩ := by
  unfold pyB64DecodeUtf8
  rw [if_pos hascii]
  simp only [hloop, hutf]

/-- C7: base64 round-trip — for every Unicode string, decoding its
encoding returns the original text along the successful path, never the
error string. -/
theorem base64_roundtrip (text : String) :
    decode_base64 (encode_base64 text) = text ∧
      pyB64DecodeUtf8 (encode_base64 text).data = .ok text := by
  have hb : ∀ b ∈ utf8Encode text.data, b < 256 := utf8Encode_lt_256 text.data
  have hok : pyB64DecodeUtf8 (encode_base64 text).data = .ok text :=
    pyB64DecodeUtf8_ok (b64EncodeBytes (utf8Encode text.data))
      (utf8Encode text.data) text.data (b64Encode_ascii _ hb)
      (b64Loop_encode _ hb []) (utf8Decode_encode text.data)
  refine ⟨?_, hok⟩
  unfold decode_base64
  rw [hok]

end RezaMCP
